import Mathlib

/-!
Shallow embedding of `src/dcm2bids_prep.py` (bidskit preparation script).

Modelling conventions:
- A filesystem path is a list of components; `os.path.join(a, b)` is `a ++ [b]`.
- The filesystem is a partial map from paths to file contents.  A file that
  holds the protocol-translator JSON object is `Content.json d` where `d` is
  the decoded mapping (an association list of string pairs, mirroring a JSON
  object of string values); a file that fails to parse is `Content.invalid`.
- `json.load` on an unparseable file raises; raised Python exceptions are
  modelled with `Except`: `PyError.jsonDecodeError` for a JSON decode failure
  and `PyError.nameError nm` for evaluating an unbound name `nm`.
- `os.walk` results are passed in explicitly: for `scan_dicom_series` as a
  list of entries (root path split on the separator, plus the file names in
  that directory), and for `bids_dcm_info` as, per visited directory, the
  list of outcomes of `dicom.read_file` on each file (`some h` when the read
  succeeds with header `h`, `none` when it raises).  A successfully parsed
  header object is taken to be truthy, and the initial `ds = []` is falsy;
  `ds` is therefore an `Option DicomHeader`.
- `print` calls are diagnostics; `scan_dicom_series` additionally returns the
  list of trace lines it prints, since its loop body consists only of prints.
-/

abbrev FPath := List String

inductive Content where
  | json (d : List (String × String))
  | invalid
deriving DecidableEq

abbrev ProtDict := List (String × String)

inductive PyError where
  | nameError (nm : String)
  | jsonDecodeError
deriving DecidableEq

abbrev FS := FPath → Option Content

def fsWrite (fs : FS) (p : FPath) (c : Content) : FS :=
  fun q => if q = p then some c else fs q

def emptyFS : FS := fun _ => none

/-- `json.load` on the raw content of a file: decodes the object, or raises. -/
def json_load : Content → Except PyError ProtDict
  | .json d => .ok d
  | .invalid => .error .jsonDecodeError

/-- Embeds `bids_load_prot_dict` (source lines 241 to 259): if the file
exists, `json.load` it (a decode failure propagates as an exception);
otherwise return the empty dictionary. -/
def bids_load_prot_dict (fs : FS) (prot_dict_json : FPath) : Except PyError ProtDict :=
  match fs prot_dict_json with
  | some c => json_load c
  | none => .ok []

/-- Embeds `bids_create_prot_dict` (source lines 262 to 289): if the file
already exists, print the skip message and leave the filesystem unchanged;
otherwise dump `prot_dict` as JSON to the path.  The boolean records whether
the skip message was printed. -/
def bids_create_prot_dict (fs : FS) (prot_dict_json : FPath) (prot_dict : ProtDict) :
    FS × Bool :=
  if (fs prot_dict_json).isSome then
    (fs, true)
  else
    (fsWrite fs prot_dict_json (Content.json prot_dict), false)

structure WalkEntry where
  root : List String
  files : List String
deriving DecidableEq

/-- `os.path.basename` of a path already split on the separator. -/
def basename (p : List String) : String :=
  (p.getLast?).getD ""

/-- One printed line of the progress trace: `n` copies of `---`, then the
separating space inserted by `print`, then the name. -/
def traceLine (depth : Nat) (nm : String) : String :=
  String.join (List.replicate depth "---") ++ " " ++ nm

/-- The body of the `os.walk` loop in `scan_dicom_series` (source lines 180
to 184): print one line for the directory and one per file; `series_list`
(the second component) is not touched. -/
def scanStep (acc : List String × List String) (e : WalkEntry) :
    List String × List String :=
  (acc.1 ++ (traceLine (e.root.length - 1) (basename e.root) ::
      e.files.map (fun f => traceLine e.root.length f)),
    acc.2)

/-- Embeds `scan_dicom_series` (source lines 170 to 186): initialise
`series_list = []`, walk the tree printing the trace, and return
`series_list`.  Returns (trace lines, `series_list`). -/
def scan_dicom_series (walk : List WalkEntry) : List String × List String :=
  walk.foldl scanStep ([], [])

structure DicomHeader where
  patientSex : Option String
  patientAge : Option String
deriving DecidableEq

/-- A value stored in the Python `dcm_info` dict: a string or an integer. -/
inductive PyVal where
  | s (v : String)
  | i (n : Int)
deriving DecidableEq

structure DcmInfo where
  Sex : PyVal
  Age : PyVal
deriving DecidableEq

/-- The inner file loop of `bids_dcm_info` (source lines 206 to 215): try to
read each file (`except: pass` keeps the previous `ds` on failure), and
`break` as soon as `ds` is truthy. -/
def scanFiles (ds : Option DicomHeader) :
    List (Option DicomHeader) → Option DicomHeader
  | [] => ds
  | r :: rest =>
    let ds2 := match r with
      | some h => some h
      | none => ds
    if ds2.isSome then ds2 else scanFiles ds2 rest

/-- The outer directory loop of `bids_dcm_info` (source line 205): the
`break` above exits only the inner loop, so every directory of the walk is
visited with the running `ds`. -/
def scanDirs (ds : Option DicomHeader) :
    List (List (Option DicomHeader)) → Option DicomHeader
  | [] => ds
  | files :: more => scanDirs (scanFiles ds files) more

/-- The dictionary-filling block of `bids_dcm_info` (source lines 217 to
229): `Sex` from `PatientSex` else the string `Unknown`; `Age` from
`PatientAge` else the integer 0. -/
def dcm_info_of (ds : DicomHeader) : DcmInfo :=
  { Sex := match ds.patientSex with
      | some v => PyVal.s v
      | none => PyVal.s "Unknown"
    Age := match ds.patientAge with
      | some v => PyVal.s v
      | none => PyVal.i 0 }

/-- Embeds `bids_dcm_info` (source lines 189 to 238): walk the session
directory; if no read ever succeeded, print the diagnostic and
`sys.exit(1)` (modelled as `.error 1`); otherwise build the info dict. -/
def bids_dcm_info (walk : List (List (Option DicomHeader))) : Except Nat DcmInfo :=
  match scanDirs none walk with
  | some ds => .ok (dcm_info_of ds)
  | none => .error 1

/-- Embeds `main` (source lines 70 to 167; the name `main` is reserved by
Lean for entry points, hence `main_run`).  Only the uncommented code is
embedded: load the dictionary from `<indir>/Protocol_Translator.json`; the
condition `prot_dict and os.path.isdir(bids_root_dir)` first tests the
truthiness of `prot_dict` and, when it is non-empty, evaluates the name
`bids_root_dir`, which is bound nowhere in the module, raising `NameError`;
when `prot_dict` is empty the conjunction short-circuits to the else branch,
which runs `scan_dicom_series` (its result is unused, the rest of the body
being commented out) and falls through to `sys.exit(0)` (modelled as
`.ok (fs, 0)` with the filesystem unchanged, since no active code writes). -/
def main_run (fs : FS) (dcm_root_dir : FPath) (walk : List WalkEntry) :
    Except PyError (FS × Nat) :=
  let prot_dict_json := dcm_root_dir ++ ["Protocol_Translator.json"]
  match bids_load_prot_dict fs prot_dict_json with
  | .error e => .error e
  | .ok prot_dict =>
    if prot_dict.isEmpty then
      let _series_list := scan_dicom_series walk
      .ok (fs, 0)
    else
      .error (.nameError "bids_root_dir")

/-- Modelled from the spec: the construction that maps every discovered
series key to the exclude sentinel is absent from `src/` (the call site of
`bids_create_prot_dict` in `main` and the code populating `prot_dict` are
commented out); spec section 4.3 describes `bootstrap(path, keys)` as
writing a new dictionary file with every key mapped to the exclude
sentinel `"EXCLUDE"`. -/
def prot_dict_from_keys (keys : List String) : ProtDict :=
  keys.map (fun k => (k, "EXCLUDE"))

/-- Concrete filesystems used by witnesses and counterexamples. -/
def fsReady : FS :=
  fsWrite emptyFS (["dicom"] ++ ["Protocol_Translator.json"])
    (Content.json [("ser1", "T1w")])

def fsInvalid : FS :=
  fsWrite emptyFS (["dicom"] ++ ["Protocol_Translator.json"]) Content.invalid

def walkEx : List WalkEntry :=
  [⟨["dicom"], []⟩, ⟨["dicom", "sub01"], []⟩,
    ⟨["dicom", "sub01", "ses01"], ["i001.dcm", "i002.dcm"]⟩]

def hdrAnon : DicomHeader := ⟨none, none⟩

def hdrF : DicomHeader := ⟨some "F", none⟩

def hdrM : DicomHeader := ⟨some "M", none⟩

/-! Helper lemmas. -/

theorem foldl_scanStep_snd (walk : List WalkEntry) (acc : List String × List String) :
    (walk.foldl scanStep acc).2 = acc.2 := by
  induction walk generalizing acc with
  | nil => rfl
  | cons e rest ih =>
    rw [List.foldl_cons, ih]
    rfl

theorem foldl_scanStep_fst_length (walk : List WalkEntry)
    (acc : List String × List String) :
    (walk.foldl scanStep acc).1.length =
      acc.1.length + (walk.map (fun e => 1 + e.files.length)).sum := by
  induction walk generalizing acc with
  | nil => simp
  | cons e rest ih =>
    rw [List.foldl_cons, ih]
    simp [scanStep]
    omega

theorem scanFiles_allNone (ds : Option DicomHeader) (files : List (Option DicomHeader))
    (h : ∀ r ∈ files, r = none) : scanFiles ds files = ds := by
  induction files with
  | nil => rfl
  | cons r rest ih =>
    have hr : r = none := h r (List.mem_cons_self r rest)
    subst hr
    by_cases hds : ds.isSome
    · simp [scanFiles, hds]
    · simp only [scanFiles, hds, if_neg]
      exact ih (fun r hm => h r (List.mem_cons_of_mem _ hm))

theorem scanFiles_isSome (ds : Option DicomHeader) (files : List (Option DicomHeader))
    (h : ds.isSome) : (scanFiles ds files).isSome := by
  cases files with
  | nil => exact h
  | cons r rest =>
    cases r with
    | none => simp [scanFiles, h]
    | some hd => simp [scanFiles]

theorem scanFiles_isSome_of_mem (ds : Option DicomHeader)
    (files : List (Option DicomHeader)) (h : ∃ hd, some hd ∈ files) :
    (scanFiles ds files).isSome := by
  induction files with
  | nil =>
    obtain ⟨hd, hm⟩ := h
    cases hm
  | cons r rest ih =>
    obtain ⟨hd, hm⟩ := h
    cases r with
    | some hd2 => simp [scanFiles]
    | none =>
      rcases List.mem_cons.mp hm with h1 | h2
      · exact absurd h1 (by simp)
      · by_cases hds : ds.isSome
        · simp [scanFiles, hds]
        · simpa [scanFiles, hds] using ih ⟨hd, h2⟩

theorem scanFiles_mem (ds : Option DicomHeader) (files : List (Option DicomHeader))
    (hd : DicomHeader) (h : scanFiles ds files = some hd) :
    ds = some hd ∨ some hd ∈ files := by
  induction files generalizing ds with
  | nil => exact Or.inl h
  | cons r rest ih =>
    cases r with
    | some hd2 =>
      simp only [scanFiles, Option.isSome_some, if_pos] at h
      exact Or.inr (by rw [h]; exact List.mem_cons_self _ _)
    | none =>
      by_cases hds : ds.isSome
      · simp only [scanFiles, hds, if_pos] at h
        exact Or.inl h
      · simp only [scanFiles, hds, if_neg, Bool.false_eq_true, not_false_iff] at h
        rcases ih ds h with h1 | h2
        · exact Or.inl h1
        · exact Or.inr (List.mem_cons_of_mem _ h2)

theorem scanDirs_isSome (ds : Option DicomHeader)
    (walk : List (List (Option DicomHeader))) (h : ds.isSome) :
    (scanDirs ds walk).isSome := by
  induction walk generalizing ds with
  | nil => exact h
  | cons files more ih => exact ih _ (scanFiles_isSome ds files h)

theorem scanDirs_isSome_of_success (ds : Option DicomHeader)
    (walk : List (List (Option DicomHeader)))
    (h : ∃ dir ∈ walk, ∃ hd, some hd ∈ dir) : (scanDirs ds walk).isSome := by
  induction walk generalizing ds with
  | nil =>
    obtain ⟨dir, hm, _⟩ := h
    cases hm
  | cons files more ih =>
    obtain ⟨dir, hm, hd, hmem⟩ := h
    rcases List.mem_cons.mp hm with h1 | h2
    · rw [h1] at hmem
      exact scanDirs_isSome _ more (scanFiles_isSome_of_mem ds files ⟨hd, hmem⟩)
    · exact ih _ ⟨dir, h2, hd, hmem⟩

theorem scanDirs_allNone (ds : Option DicomHeader)
    (walk : List (List (Option DicomHeader)))
    (h : ∀ dir ∈ walk, ∀ r ∈ dir, r = none) : scanDirs ds walk = ds := by
  induction walk generalizing ds with
  | nil => rfl
  | cons files more ih =>
    show scanDirs (scanFiles ds files) more = ds
    rw [scanFiles_allNone ds files (h files (List.mem_cons_self _ _))]
    exact ih ds (fun dir hm => h dir (List.mem_cons_of_mem _ hm))

theorem scanDirs_mem (ds : Option DicomHeader)
    (walk : List (List (Option DicomHeader))) (hd : DicomHeader)
    (h : scanDirs ds walk = some hd) :
    ds = some hd ∨ ∃ dir ∈ walk, some hd ∈ dir := by
  induction walk generalizing ds with
  | nil => exact Or.inl h
  | cons files more ih =>
    rcases ih _ h with h1 | h2
    · rcases scanFiles_mem ds files hd h1 with g1 | g2
      · exact Or.inl g1
      · exact Or.inr ⟨files, List.mem_cons_self _ _, g2⟩
    · obtain ⟨dir, hm, hmem⟩ := h2
      exact Or.inr ⟨dir, List.mem_cons_of_mem _ hm, hmem⟩

/-! Claim theorems. -/

/-- Claim C1 (code bug): the claim says that when the dictionary parses to a
non-empty mapping and the output root exists, `main` selects `READY` and runs
Pass 2.  On the code, as soon as the dictionary is non-empty the condition
evaluates the unbound name `bids_root_dir` and raises `NameError`, shown here
at a concrete input whose dictionary file holds the non-empty mapping with
the single entry `ser1` to `T1w`. -/
theorem C1_ready_branch_raises_nameError :
    main_run fsReady ["dicom"] [] = .error (.nameError "bids_root_dir") := by
  rfl

/-- Claim C2 (code bug): on an input root with no existing dictionary file,
`main` runs Pass 1 and exits 0, but it does not write
`Protocol_Translator.json`: the filesystem is returned unchanged and the
dictionary path is still absent, because the `bids_create_prot_dict` call in
the source is commented out and the scanner collects no keys. -/
theorem C2_pass1_writes_no_dictionary :
    main_run emptyFS ["dicom"] walkEx = .ok (emptyFS, 0) ∧
      emptyFS (["dicom"] ++ ["Protocol_Translator.json"]) = none := by
  exact ⟨rfl, rfl⟩

/-- Claim C3 (code bug): the claim says the scanner returns the distinct
series keys encountered under the tree.  On a concrete walk whose session
directory contains two files, the code still returns the empty series list,
while it does emit a non-empty progress trace. -/
theorem C3_scanner_collects_no_keys :
    (scan_dicom_series walkEx).2 = [] ∧ (scan_dicom_series walkEx).1 ≠ [] := by
  constructor
  · rfl
  · intro h
    have hlen : (scan_dicom_series walkEx).1.length = 0 := by rw [h]; rfl
    rw [scan_dicom_series, foldl_scanStep_fst_length] at hlen
    simp [walkEx] at hlen

/-- Claim C4 (confirmed): `bids_create_prot_dict` never overwrites an
existing file.  Applying it twice leaves the filesystem after the second
call identical to after the first, and when the path already exists the
first call reports the skip and leaves the content at the path unchanged. -/
theorem C4_bootstrap_never_overwrites (fs : FS) (p : FPath) (d d2 : ProtDict) :
    (bids_create_prot_dict (bids_create_prot_dict fs p d).1 p d2).1 =
        (bids_create_prot_dict fs p d).1 ∧
      ((fs p).isSome = true →
        (bids_create_prot_dict fs p d).1 p = fs p ∧
          (bids_create_prot_dict fs p d).2 = true) := by
  by_cases h : (fs p).isSome
  · simp [bids_create_prot_dict, h]
  · simp [bids_create_prot_dict, h, fsWrite]

/-- Witness for C4 on a concrete filesystem whose dictionary path exists. -/
theorem C4_witness :
    (bids_create_prot_dict fsReady (["dicom"] ++ ["Protocol_Translator.json"])
          [("x", "y")]).1 (["dicom"] ++ ["Protocol_Translator.json"]) =
        fsReady (["dicom"] ++ ["Protocol_Translator.json"]) ∧
      (bids_create_prot_dict fsReady (["dicom"] ++ ["Protocol_Translator.json"])
          [("x", "y")]).2 = true :=
  (C4_bootstrap_never_overwrites fsReady (["dicom"] ++ ["Protocol_Translator.json"])
    [("x", "y")] []).2 rfl

/-- Claim C5 (confirmed): `bids_load_prot_dict` returns the parsed mapping
when the backing file exists and parses, returns the empty mapping without
error when the file is absent, and fails (the decode exception propagates)
when the file exists but does not parse. -/
theorem C5_load_semantics (fs : FS) (p : FPath) :
    (∀ d, fs p = some (Content.json d) → bids_load_prot_dict fs p = .ok d) ∧
      (fs p = none → bids_load_prot_dict fs p = .ok []) ∧
      (fs p = some Content.invalid →
        bids_load_prot_dict fs p = .error .jsonDecodeError) := by
  refine ⟨fun d h => ?_, fun h => ?_, fun h => ?_⟩ <;>
    simp [bids_load_prot_dict, h, json_load]

/-- Witness for C5: the three cases at concrete filesystems. -/
theorem C5_witness :
    bids_load_prot_dict fsReady (["dicom"] ++ ["Protocol_Translator.json"]) =
        .ok [("ser1", "T1w")] ∧
      bids_load_prot_dict emptyFS (["dicom"] ++ ["Protocol_Translator.json"]) =
        .ok [] ∧
      bids_load_prot_dict fsInvalid (["dicom"] ++ ["Protocol_Translator.json"]) =
        .error .jsonDecodeError :=
  ⟨(C5_load_semantics fsReady _).1 _ rfl,
    (C5_load_semantics emptyFS _).2.1 rfl,
    (C5_load_semantics fsInvalid _).2.2 rfl⟩

/-- Claim C6 (confirmed, with the keys-to-sentinel template construction
modelled from the spec): writing the template for a key list `keys` to an
absent path with `bids_create_prot_dict` and loading it back with
`bids_load_prot_dict` yields a mapping whose key list equals `keys` and
whose every value is the sentinel `EXCLUDE`. -/
theorem C6_bootstrap_load_roundtrip (fs : FS) (p : FPath) (keys : List String)
    (habs : fs p = none) :
    bids_load_prot_dict (bids_create_prot_dict fs p (prot_dict_from_keys keys)).1 p =
        .ok (prot_dict_from_keys keys) ∧
      (prot_dict_from_keys keys).map Prod.fst = keys ∧
      ∀ kv ∈ prot_dict_from_keys keys, kv.2 = "EXCLUDE" := by
  refine ⟨?_, ?_, ?_⟩
  · simp [bids_create_prot_dict, habs, bids_load_prot_dict, fsWrite, json_load]
  · induction keys with
    | nil => rfl
    | cons k rest ih => simpa [prot_dict_from_keys] using ih
  · intro kv hkv
    simp only [prot_dict_from_keys, List.mem_map] at hkv
    obtain ⟨k, hk, rfl⟩ := hkv
    rfl

/-- Witness for C6: the round trip at an absent path for two keys. -/
theorem C6_witness :
    emptyFS (["dicom"] ++ ["Protocol_Translator.json"]) = none ∧
      bids_load_prot_dict
          (bids_create_prot_dict emptyFS (["dicom"] ++ ["Protocol_Translator.json"])
            (prot_dict_from_keys ["serA", "serB"])).1
          (["dicom"] ++ ["Protocol_Translator.json"]) =
        .ok (prot_dict_from_keys ["serA", "serB"]) :=
  ⟨rfl,
    (C6_bootstrap_load_roundtrip emptyFS (["dicom"] ++ ["Protocol_Translator.json"])
      ["serA", "serB"] rfl).1⟩

/-- Claim C7 (confirmed): `bids_dcm_info` exits fatally with code 1 when no
file in the session directory yields a parseable header; when at least one
file parses, it returns the info built from one of the successfully parsed
headers, with `Sex` defaulting to `Unknown` and `Age` defaulting to 0 when
the fields are absent. -/
theorem C7_dcm_info_fatal_or_defaults (walk : List (List (Option DicomHeader))) :
    ((∀ dir ∈ walk, ∀ r ∈ dir, r = none) → bids_dcm_info walk = .error 1) ∧
      ((∃ dir ∈ walk, ∃ hd, some hd ∈ dir) →
        ∃ hd, (∃ dir ∈ walk, some hd ∈ dir) ∧
          bids_dcm_info walk = .ok (dcm_info_of hd)) ∧
      (∀ hd : DicomHeader, hd.patientSex = none →
        (dcm_info_of hd).Sex = PyVal.s "Unknown") ∧
      (∀ hd : DicomHeader, hd.patientAge = none →
        (dcm_info_of hd).Age = PyVal.i 0) := by
  refine ⟨fun h => ?_, fun h => ?_, fun hd h => ?_, fun hd h => ?_⟩
  · rw [bids_dcm_info, scanDirs_allNone none walk h]
  · have hs := scanDirs_isSome_of_success none walk h
    obtain ⟨hd, hd_eq⟩ := Option.isSome_iff_exists.mp hs
    refine ⟨hd, ?_, ?_⟩
    · rcases scanDirs_mem none walk hd hd_eq with h1 | h2
      · exact absurd h1 (by simp)
      · exact h2
    · rw [bids_dcm_info, hd_eq]
  · simp [dcm_info_of, h]
  · simp [dcm_info_of, h]

/-- Witness for C7: a session with a single unreadable file aborts with exit
code 1; a session with a single parseable anonymized header yields the
default metadata. -/
theorem C7_witness :
    bids_dcm_info [[none]] = .error 1 ∧
      bids_dcm_info [[some hdrAnon]] = .ok (dcm_info_of hdrAnon) ∧
      (dcm_info_of hdrAnon).Sex = PyVal.s "Unknown" ∧
      (dcm_info_of hdrAnon).Age = PyVal.i 0 := by
  refine ⟨(C7_dcm_info_fatal_or_defaults [[none]]).1 (by simp), ?_,
    (C7_dcm_info_fatal_or_defaults [[some hdrAnon]]).2.2.1 hdrAnon rfl,
    (C7_dcm_info_fatal_or_defaults [[some hdrAnon]]).2.2.2 hdrAnon rfl⟩
  obtain ⟨hd, hmem, heq⟩ :=
    (C7_dcm_info_fatal_or_defaults [[some hdrAnon]]).2.1
      ⟨[some hdrAnon], by simp, hdrAnon, by simp⟩
  obtain ⟨dir, hdir, hin⟩ := hmem
  have hd_eq : hd = hdrAnon := by
    simp only [List.mem_singleton] at hdir
    subst hdir
    simpa using hin
  rw [hd_eq] at heq
  exact heq

/-- Claim C8 (code bug): the claim says files encountered after the first
successfully parsed header do not influence the result.  With a first
subdirectory holding a header with sex `F` and a second holding one with sex
`M`, the result of `bids_dcm_info` carries `M`: the break exits only the
inner file loop, and the header read in the later subdirectory overwrites
the first one. -/
theorem C8_later_directory_overwrites_first_header :
    bids_dcm_info [[some hdrF]] = .ok ⟨PyVal.s "F", PyVal.i 0⟩ ∧
      bids_dcm_info [[some hdrF], [some hdrM]] = .ok ⟨PyVal.s "M", PyVal.i 0⟩ := by
  exact ⟨rfl, rfl⟩

/-- Claim C9 (confirmed): for every walk, `scan_dicom_series` returns the
empty series list, while printing one trace line per visited directory and
one per file. -/
theorem C9_scan_returns_empty_series (walk : List WalkEntry) :
    (scan_dicom_series walk).2 = [] ∧
      (scan_dicom_series walk).1.length =
        (walk.map (fun e => 1 + e.files.length)).sum := by
  constructor
  · exact foldl_scanStep_snd walk ([], [])
  · simpa using foldl_scanStep_fst_length walk ([], [])

/-- Claim C10 (confirmed): whenever the dictionary file loads to a non-empty
mapping, the pass-selection condition of `main` evaluates the unbound name
`bids_root_dir` and the run raises `NameError`; Pass 2 is never entered. -/
theorem C10_nonempty_dict_raises_nameError (fs : FS) (root : FPath)
    (walk : List WalkEntry) (d : ProtDict)
    (hf : fs (root ++ ["Protocol_Translator.json"]) = some (Content.json d))
    (hne : d ≠ []) :
    main_run fs root walk = .error (.nameError "bids_root_dir") := by
  rw [main_run, bids_load_prot_dict, hf]
  simp [json_load, List.isEmpty_iff, hne]

/-- Witness for C10 at a concrete filesystem with a one-entry dictionary. -/
theorem C10_witness :
    main_run fsReady ["dicom"] walkEx = .error (.nameError "bids_root_dir") :=
  C10_nonempty_dict_raises_nameError fsReady ["dicom"] walkEx [("ser1", "T1w")]
    rfl (by simp)
